import Mathlib

/-!
Shallow embedding of the `hue` Go package (a Philips Hue HTTP/JSON client)
and of its command-line front end.  The JSON wire values are modelled by an
inductive `Json` type (numbers as integers, which covers every payload the
hub protocol exchanges here), Go `encoding/json` unmarshalling into the
error-envelope type is modelled by total decoding functions that mirror the
lenient matching rules of the Go decoder (case-insensitive key match, last
duplicate key wins, unknown keys ignored, missing keys and JSON null leave
the zero value, type mismatches fail the whole unmarshal), and the
response-classification routine `processJsonResponse` is translated
branch-for-branch from the source.
-/

/-- A JSON value.  Numbers are modelled as integers: every number in the hub
protocol handled by this client (error types, hue, sat, bri) is integral. -/
inductive Json : Type where
  | null : Json
  | bool (b : Bool) : Json
  | num (n : Int) : Json
  | str (s : String) : Json
  | arr (elems : List Json) : Json
  | obj (fields : List (String × Json)) : Json

/-- The keys of a JSON object (empty for non-objects). -/
def Json.keys : Json → List String
  | Json.obj fields => fields.map Prod.fst
  | _ => []

/-- The fields of a JSON object (empty for non-objects). -/
def Json.fieldsOf : Json → List (String × Json)
  | Json.obj fields => fields
  | _ => []

/-- A raw HTTP response body: either bytes that are not well-formed JSON
(`invalid`, on which every `json.Unmarshal` fails) or a parsed JSON value. -/
inductive Body : Type where
  | invalid : Body
  | json (v : Json) : Body

/-- Outcome of `ioutil.ReadAll(resp.Body)`. -/
inductive ReadResult : Type where
  | readFailure : ReadResult
  | ok (b : Body) : ReadResult

/-- The parts of an `http.Response` that `processJsonResponse` inspects. -/
structure Response : Type where
  statusCode : Nat
  body : ReadResult

/-- `HueError` from hue.go: one failure reported by the hub.  The Go struct
fields are `Type`, `Address`, `Description`; `Type` is renamed `type` here
because `Type` is reserved in Lean. -/
structure HueError : Type where
  type : Int
  address : String
  description : String
deriving DecidableEq

/-- One element of the error envelope: Go `struct { Error HueError }`. -/
structure HueErrorEntry : Type where
  Error : HueError
deriving DecidableEq

/-- `HueAggregateError` from hue.go: `[]struct { Error HueError }`. -/
abbrev HueAggregateError : Type := List HueErrorEntry

/-- Rendering of `(*HueError).Error()`:
`fmt.Sprintf("Hue Error %v: %v %v", Type, Address, Description)`. -/
def HueError.render (err : HueError) : String :=
  "Hue Error " ++ toString err.type ++ ": " ++ err.address ++ " " ++ err.description

/-- Rendering of `(*HueAggregateError).Error()`: starting from the empty
string, each entry appends its own rendered message followed by a newline. -/
def HueAggregateError.render (errs : HueAggregateError) : String :=
  errs.foldl (fun desc e => desc ++ e.Error.render ++ "\n") ""

/-- Lower-casing of one character, as Go key folding behaves on the ASCII
key names this protocol uses. -/
def asciiLowerChar (c : Char) : Char :=
  if 65 ≤ c.toNat ∧ c.toNat ≤ 90 then Char.ofNat (c.toNat + 32) else c

/-- Case-insensitive key comparison used by the Go decoder to match incoming
object keys against struct field names. -/
def keyMatches (k name : String) : Bool :=
  k.data.map asciiLowerChar == name.data.map asciiLowerChar

/-- Go object-key lookup: keys match case-insensitively and, among duplicate
matches, the last one in the object wins (the streaming decoder overwrites). -/
def lookupKey (fields : List (String × Json)) (name : String) : Option Json :=
  ((fields.filter (fun kv => keyMatches kv.fst name)).map Prod.snd).getLast?

/-- Go unmarshal of an object field into an `int` struct member: a missing
key or JSON null leaves the zero value, a number is taken as-is, and any
other JSON value is a type error failing the whole unmarshal. -/
def jsonFieldInt (fields : List (String × Json)) (name : String) : Option Int :=
  match lookupKey fields name with
  | none => some 0
  | some Json.null => some 0
  | some (Json.num n) => some n
  | some _ => none

/-- Go unmarshal of an object field into a `string` struct member. -/
def jsonFieldStr (fields : List (String × Json)) (name : String) : Option String :=
  match lookupKey fields name with
  | none => some ""
  | some Json.null => some ""
  | some (Json.str s) => some s
  | some _ => none

/-- Go unmarshal of a JSON value into a `HueError` struct: null is a no-op
(zero value), an object decodes field-wise, anything else is a type error. -/
def decodeHueError : Json → Option HueError
  | Json.null => some ⟨0, "", ""⟩
  | Json.obj fields =>
    match jsonFieldInt fields "type", jsonFieldStr fields "address",
        jsonFieldStr fields "description" with
    | some t, some a, some d => some ⟨t, a, d⟩
    | _, _, _ => none
  | _ => none

/-- Go unmarshal of one envelope element `struct { Error HueError }`. -/
def decodeHueErrorEntry : Json → Option HueErrorEntry
  | Json.null => some ⟨⟨0, "", ""⟩⟩
  | Json.obj fields =>
    match lookupKey fields "error" with
    | none => some ⟨⟨0, "", ""⟩⟩
    | some je => (decodeHueError je).map HueErrorEntry.mk
  | _ => none

/-- Go unmarshal of a JSON value into `HueAggregateError` (a slice): null
leaves the nil slice, an array decodes element-wise, anything else fails. -/
def decodeAggregateJson : Json → Option HueAggregateError
  | Json.null => some []
  | Json.arr elems => elems.mapM decodeHueErrorEntry
  | _ => none

/-- `json.Unmarshal(body, &hueErr)` on the raw body: fails on malformed
bytes, otherwise decodes the JSON value. -/
def goUnmarshalAggregate : Body → Option HueAggregateError
  | Body.invalid => none
  | Body.json v => decodeAggregateJson v

/-- The error values a library operation can return, one constructor per
`return err` site reachable from an operation. -/
inductive HueLibError : Type where
  | httpStatus (code : Nat) : HueLibError
  | readFailure : HueLibError
  | api (e : HueError) : HueLibError
  | aggregate (errs : HueAggregateError) : HueLibError
  | parseFailure : HueLibError
  | marshalFailure : HueLibError
  | transportFailure : HueLibError
deriving DecidableEq

/-- The final stage of `processJsonResponse`: `json.Unmarshal(body, &jsonBody)`
with the operation-specific success decoder `dec`.  On success the output
parameter is overwritten with the decoded value; on failure it keeps its
previous value and the parse error is returned. -/
def finishParse {α : Type} (dec : Json → Option α) (b : Body) (jsonBody : α) :
    α × Option HueLibError :=
  match b with
  | Body.invalid => (jsonBody, some HueLibError.parseFailure)
  | Body.json v =>
    match dec v with
    | some x => (x, none)
    | none => (jsonBody, some HueLibError.parseFailure)

/-- `processJsonResponse(resp, &jsonBody)` from hue.go, translated
branch-for-branch.  Returns the (possibly updated) output parameter together
with the returned error (`none` = nil). -/
def processJsonResponse {α : Type} (dec : Json → Option α) (resp : Response)
    (jsonBody : α) : α × Option HueLibError :=
  if resp.statusCode ≠ 200 then
    (jsonBody, some (HueLibError.httpStatus resp.statusCode))
  else
    match resp.body with
    | ReadResult.readFailure => (jsonBody, some HueLibError.readFailure)
    | ReadResult.ok b =>
      match goUnmarshalAggregate b with
      | some hueErr =>
        match hueErr with
        | [] => finishParse dec b jsonBody
        | e :: rest =>
          if e.Error.type ≠ 0 then
            if rest = [] then (jsonBody, some (HueLibError.api e.Error))
            else (jsonBody, some (HueLibError.aggregate (e :: rest)))
          else finishParse dec b jsonBody
      | none => finishParse dec b jsonBody

/-- `Hue` from hue.go: connection parameters for a hub. -/
structure Hue : Type where
  IpAddress : String
  UserName : String
  DeviceType : String

/-- Outcome of a Go function call as seen by its caller: a normal return of
a value, a non-nil error, or a runtime panic (which never reaches the caller
as an error value). -/
inductive GoOutcome (α : Type) : Type where
  | ok (a : α) : GoOutcome α
  | err (e : HueLibError) : GoOutcome α
  | panic : GoOutcome α

/-- The environment a single `put` call runs in: whether `json.Marshal`
of the request body succeeds, whether `http.NewRequest` succeeds, and what
`client.Do` produces (`none` = transport error). -/
structure PutWorld : Type where
  marshalOk : Bool
  newRequestOk : Bool
  send : Option Response

/-- `(*Hue).put` from hue.go, stage by stage.  Note the source checks the
`http.NewRequest` error but only logs it without returning: execution falls
through to `req.Header.Add` on the nil request, which panics. -/
def put {α : Type} (w : PutWorld) (dec : Json → Option α) (respBody : α) :
    GoOutcome α :=
  if w.marshalOk = false then GoOutcome.err HueLibError.marshalFailure
  else if w.newRequestOk = false then GoOutcome.panic
  else
    match w.send with
    | none => GoOutcome.err HueLibError.transportFailure
    | some resp =>
      match processJsonResponse dec resp respBody with
      | (b, none) => GoOutcome.ok b
      | (_, some e) => GoOutcome.err e

/-- `(*Hue).get` from hue.go: `http.Get` (`none` = transport error) followed
by `processJsonResponse`. -/
def Hue.get {α : Type} (send : Option Response) (dec : Json → Option α)
    (jsonBody : α) : GoOutcome α :=
  match send with
  | none => GoOutcome.err HueLibError.transportFailure
  | some resp =>
    match processJsonResponse dec resp jsonBody with
    | (b, none) => GoOutcome.ok b
    | (_, some e) => GoOutcome.err e

/-- Request path used by `GetLight`. -/
def getLightPath (hue : Hue) (id : String) : String :=
  "/api/" ++ hue.UserName ++ "/lights/" ++ id

/-- `PutLightRequest` from hue.go.  Every member is a pointer in Go because
it is optional; a nil pointer is modelled as `none`. -/
structure PutLightRequest : Type where
  On : Option Bool
  Hue : Option Int
  Sat : Option Int
  Bri : Option Int

/-- One field of a marshalled struct with the `omitempty` tag on a pointer
member: a nil pointer contributes nothing, a set pointer contributes its
value. -/
def optField (name : String) (v : Option Json) : List (String × Json) :=
  match v with
  | some j => [(name, j)]
  | none => []

/-- `json.Marshal` of a `PutLightRequest`, following the struct tags
`json:"on,omitempty"` etc.: each nil member is omitted entirely and each set
member is emitted under its tag name, in struct order. -/
def PutLightRequest.marshal (r : PutLightRequest) : Json :=
  Json.obj (optField "on" (r.On.map Json.bool) ++
    optField "hue" (r.Hue.map Json.num) ++
    optField "sat" (r.Sat.map Json.num) ++
    optField "bri" (r.Bri.map Json.num))

/-- Request path used by `PutLight`. -/
def putLightPath (hue : Hue) (id : String) : String :=
  "/api/" ++ hue.UserName ++ "/lights/" ++ id ++ "/state"

/-- `postUserRequest` from hue.go, with its `json:"username"` and
`json:"devicetype"` tags. -/
structure PostUserRequest : Type where
  username : String
  devicetype : String

/-- `json.Marshal` of a `postUserRequest`: both members are plain strings
without `omitempty`, so both keys are always emitted, in struct order under
their tag names. -/
def PostUserRequest.marshal (r : PostUserRequest) : Json :=
  Json.obj [("username", Json.str r.username), ("devicetype", Json.str r.devicetype)]

/-- The request path used by `PostUser`. -/
def postUserPath : String := "/api"

/-- The request body `PostUser` constructs: `{hue.UserName, hue.DeviceType}`
in positional order, so `username` is bound to `UserName` and `devicetype`
to `DeviceType`. -/
def postUserBody (hue : Hue) : PostUserRequest :=
  ⟨hue.UserName, hue.DeviceType⟩

/-- The fatal action the command-line program takes when registration fails
(cmd/hue/hue.go): a dedicated link-button message, or a generic
unable-to-register message wrapping the error. -/
inductive CliFatal : Type where
  | linkButton : CliFatal
  | unableToRegister (e : HueLibError) : CliFatal
deriving DecidableEq

/-- The error dispatch in `main` after `RegisterUser` fails: if the error is
a `*HueError` whose `Type` is 101 the program prints the press-the-link-button
message; every other error falls through to the generic message. -/
def classifyRegisterError : HueLibError → CliFatal
  | HueLibError.api e =>
    if e.type = 101 then CliFatal.linkButton
    else CliFatal.unableToRegister (HueLibError.api e)
  | e => CliFatal.unableToRegister e

/-- The text of the link-button fatal message in cmd/hue/hue.go. -/
def linkButtonMessage : String :=
  "Please press the link button on the router and then try again."

/-- The light list the command-line program controls: the `-light` flag value
when non-empty, otherwise every light id from the lights listing. -/
def cliLights (lightFlag : String) (listing : List String) : List String :=
  if lightFlag ≠ "" then [lightFlag] else listing

/-- Result of the per-light update loop in `main`: either the loop completed
and every listed light was attempted, or `log.Fatalf` terminated the process
after the recorded attempts, naming the light that failed. -/
inductive CliRun : Type where
  | completed (attempted : List String) : CliRun
  | fatal (attempted : List String) (failed : String) : CliRun
deriving DecidableEq

/-- The lights the loop actually attempted. -/
def CliRun.attempted : CliRun → List String
  | CliRun.completed ls => ls
  | CliRun.fatal ls _ => ls

/-- The per-light loop of `main` (cmd/hue/hue.go): `ChangeLight` on each
light in order; on the first failure `log.Fatalf` exits the process, so no
later light is attempted.  `update l = true` means the call succeeded. -/
def changeLights (update : String → Bool) : List String → CliRun
  | [] => CliRun.completed []
  | l :: rest =>
    if update l then
      match changeLights update rest with
      | CliRun.completed ls => CliRun.completed (l :: ls)
      | CliRun.fatal ls f => CliRun.fatal (l :: ls) f
    else CliRun.fatal [l] l

/-- Whether a body is confirmed as a hub error by the classification in
`processJsonResponse`: it unmarshals as the error envelope, the sequence is
non-empty, and the first entry has a non-zero error type. -/
def confirmedErrorEnvelope (b : Body) : Bool :=
  match goUnmarshalAggregate b with
  | some (e :: _) => e.Error.type != 0
  | _ => false

/-- Whether a returned error is a hub-reported API error (single or
aggregate). -/
def isApiClassified : Option HueLibError → Bool
  | some (HueLibError.api _) => true
  | some (HueLibError.aggregate _) => true
  | _ => false

/-- The errors `processJsonResponse` can return before it reaches the final
success-payload unmarshal stage. -/
def isPreParseError : HueLibError → Bool
  | HueLibError.httpStatus _ => true
  | HueLibError.readFailure => true
  | HueLibError.api _ => true
  | HueLibError.aggregate _ => true
  | _ => false

/-- The identity success decoder, used to instantiate the abstract
operation-specific decoder at concrete inputs. -/
def decAny : Json → Option Json := fun j => some j

/-- The hub body sent when the link button was not pressed:
`[ ... error ... type 101 ... ]` as in the registration scenario. -/
def body101 : Json :=
  Json.arr [Json.obj [("error", Json.obj [("type", Json.num 101),
    ("address", Json.str "/"), ("description", Json.str "link button not pressed")])]]

/-- The decoded form of the single error entry of `body101`. -/
def hueError101 : HueError := ⟨101, "/", "link button not pressed"⟩

/-- A lights listing body: a JSON object, not an array, so the envelope
unmarshal fails and classification proceeds to success parsing. -/
def lightsListingJson : Json :=
  Json.obj [("1", Json.obj [("name", Json.str "Kitchen")]),
    ("2", Json.obj [("name", Json.str "Hall")])]

/-- An envelope whose first entry has error type 0 while the second entry
carries a non-zero error type. -/
def zeroFirstEnvelope : Json :=
  Json.arr [Json.obj [("error", Json.obj [("type", Json.num 0)])],
    Json.obj [("error", Json.obj [("type", Json.num 5),
      ("address", Json.str "a"), ("description", Json.str "d")])]]

/-- An envelope with two entries, both carrying non-zero error types. -/
def twoErrorEnvelope : Json :=
  Json.arr [Json.obj [("error", Json.obj [("type", Json.num 1),
      ("address", Json.str "a"), ("description", Json.str "d")])],
    Json.obj [("error", Json.obj [("type", Json.num 2),
      ("address", Json.str "b"), ("description", Json.str "e")])]]

/-- The decoded entries of `twoErrorEnvelope`. -/
def twoErrorEntries : HueAggregateError := [⟨⟨1, "a", "d"⟩⟩, ⟨⟨2, "b", "e"⟩⟩]

/-- Folding message concatenation over a list equals joining the individual
messages: the accumulator form used by `HueAggregateError.render` preserves
entry order. -/
theorem foldl_render_join (f : HueErrorEntry → String) (l : List HueErrorEntry)
    (acc : String) :
    l.foldl (fun d e => d ++ f e ++ "\n") acc
      = acc ++ String.join (l.map fun e => f e ++ "\n") := by
  induction l generalizing acc with
  | nil => simp [String.join]
  | cons x xs ih =>
    rw [List.foldl_cons, ih, List.map_cons]
    apply String.ext
    simp

/-- The aggregate error message is the join of the per-entry messages, each
followed by the newline separator, in entry order. -/
theorem HueAggregateError.render_eq_join (errs : HueAggregateError) :
    errs.render = String.join (errs.map fun e => e.Error.render ++ "\n") := by
  have h := foldl_render_join (fun e => e.Error.render) errs ""
  simpa [HueAggregateError.render] using h

/-- The success-parse stage never yields a hub API error. -/
theorem finishParse_not_api {α : Type} (dec : Json → Option α) (b : Body)
    (out : α) : isApiClassified (finishParse dec b out).2 = false := by
  unfold finishParse
  cases b with
  | invalid => rfl
  | json v => cases hd : dec v <;> simp [hd, isApiClassified]

/-- The success-parse stage leaves the output parameter unchanged unless the
parse succeeds (in which case no error is returned). -/
theorem finishParse_fst {α : Type} (dec : Json → Option α) (b : Body)
    (out : α) : (finishParse dec b out).2 = none ∨ (finishParse dec b out).1 = out := by
  unfold finishParse
  cases b with
  | invalid => exact Or.inr rfl
  | json v => cases hd : dec v <;> simp [hd]

/-- When an error is returned, the output parameter is unchanged. -/
theorem processJsonResponse_fst {α : Type} (dec : Json → Option α)
    (resp : Response) (out : α) :
    (processJsonResponse dec resp out).2 = none ∨
    (processJsonResponse dec resp out).1 = out := by
  unfold processJsonResponse
  rcases resp with ⟨code, body⟩
  by_cases h : code ≠ 200
  · simp [h]
  · simp only [h, if_false]
    rcases body with _ | b
    · simp
    · simp only
      rcases hagg : goUnmarshalAggregate b with _ | es
      · exact finishParse_fst dec b out
      · rcases es with _ | ⟨e, rest⟩
        · exact finishParse_fst dec b out
        · by_cases ht : e.Error.type ≠ 0
          · rcases rest with _ | ⟨e2, rest⟩ <;> simp [ht]
          · simp only [ht, if_false]
            exact finishParse_fst dec b out

/-- Claim C3: the serialized `PutLightRequest` body contains exactly the
explicitly set (non-nil) fields under their tag names, unset fields are
omitted entirely (never emitted as null), and setting only the `On` field
produces a body whose only key is `on`. -/
theorem putLightRequest_marshal_exact_fields (r : PutLightRequest) :
    (∀ k, k ∈ (PutLightRequest.marshal r).keys ↔
      ((k = "on" ∧ r.On.isSome) ∨ (k = "hue" ∧ r.Hue.isSome) ∨
       (k = "sat" ∧ r.Sat.isSome) ∨ (k = "bri" ∧ r.Bri.isSome))) ∧
    Json.null ∉ (PutLightRequest.marshal r).fieldsOf.map Prod.snd ∧
    (∀ b, PutLightRequest.marshal ⟨some b, none, none, none⟩ =
      Json.obj [("on", Json.bool b)]) := by
  obtain ⟨o, hu, sa, br⟩ := r
  refine ⟨?_, ?_, fun b => rfl⟩
  · intro k
    cases o <;> cases hu <;> cases sa <;> cases br <;>
      simp [PutLightRequest.marshal, optField, Json.keys]
  · cases o <;> cases hu <;> cases sa <;> cases br <;>
      simp [PutLightRequest.marshal, optField, Json.fieldsOf]

/-- Claim C8: `PostUser` posts to the path `/api` a body whose keys are
exactly `username` and `devicetype`, bound respectively to the client
`UserName` and `DeviceType` fields. -/
theorem postUser_request_shape (hue : Hue) :
    postUserPath = "/api" ∧
    PostUserRequest.marshal (postUserBody hue) =
      Json.obj [("username", Json.str hue.UserName),
        ("devicetype", Json.str hue.DeviceType)] ∧
    (PostUserRequest.marshal (postUserBody hue)).keys = ["username", "devicetype"] :=
  ⟨rfl, rfl, rfl⟩

/-- Claim C4 (failing stage, evaluated): when `json.Marshal` succeeds but
`http.NewRequest` fails, `put` does not return an error to its caller — the
source only logs the failure, falls through to dereference the nil request,
and panics. -/
theorem put_swallows_newRequest_failure :
    put (PutWorld.mk true false none) decAny Json.null = GoOutcome.panic ∧
    ∀ e, put (PutWorld.mk true false none) decAny Json.null ≠ GoOutcome.err e := by
  refine ⟨rfl, fun e => ?_⟩
  intro hcontra
  simp [put] at hcontra

/-- Claim C5 (counterexample): with lights `1` and `2` listed and the update
failing on light `1`, the command-line loop terminates the process at light
`1` and never attempts light `2`. -/
theorem cli_failure_blocks_subsequent_counterexample :
    changeLights (fun l => l != "1") (cliLights "" ["1", "2"])
      = CliRun.fatal ["1"] "1" ∧
    "2" ∈ cliLights "" ["1", "2"] ∧
    "2" ∉ (changeLights (fun l => l != "1") (cliLights "" ["1", "2"])).attempted := by
  decide

/-- Claim C5 (amended): when no light is named the command-line program
enumerates every light from the listing and updates them in order, but the
loop calls `log.Fatalf` on the first failure, so the failing light is the
last one attempted and no subsequent light is attempted. -/
theorem cli_batch_stops_at_first_failure (update : String → Bool)
    (pre : List String) (l : String) (post : List String)
    (hpre : ∀ x ∈ pre, update x = true) (hl : update l = false) :
    cliLights "" (pre ++ l :: post) = pre ++ l :: post ∧
    changeLights update (pre ++ l :: post) = CliRun.fatal (pre ++ [l]) l := by
  refine ⟨by simp [cliLights], ?_⟩
  induction pre with
  | nil => simp [changeLights, hl]
  | cons x xs ih =>
    have hx : update x = true := hpre x (by simp)
    have ihh := ih (fun y hy => hpre y (by simp [hy]))
    simp [changeLights, hx, ihh]

/-- Witness for C5 amended: lights `0`, `1`, `2` with the update failing on
`1`: light `0` succeeds, light `1` fails fatally, light `2` is not attempted. -/
theorem cli_batch_stops_at_first_failure_witness :
    (∀ x ∈ ["0"], (fun l => l != "1") x = true) ∧
    ((fun l => l != "1") "1" = false) ∧
    (cliLights "" (["0"] ++ "1" :: ["2"]) = ["0"] ++ "1" :: ["2"] ∧
     changeLights (fun l => l != "1") (["0"] ++ "1" :: ["2"])
       = CliRun.fatal (["0"] ++ ["1"]) "1") :=
  ⟨by decide, by decide,
    cli_batch_stops_at_first_failure (fun l => l != "1") ["0"] "1" ["2"]
      (by decide) (by decide)⟩

/-- Claim C6: a non-200 status is reported immediately as the transport-style
status error without reading any classification from the body, both at the
classification routine and through `get` (as used by `GetLight`); this error
is distinct from the malformed-response parse error and is not a hub API
error. -/
theorem non200_reported_without_parsing {α : Type} (dec : Json → Option α)
    (resp : Response) (out : α) (h : resp.statusCode ≠ 200) :
    processJsonResponse dec resp out
      = (out, some (HueLibError.httpStatus resp.statusCode)) ∧
    Hue.get (some resp) dec out = GoOutcome.err (HueLibError.httpStatus resp.statusCode) ∧
    HueLibError.httpStatus resp.statusCode ≠ HueLibError.parseFailure ∧
    isApiClassified (some (HueLibError.httpStatus resp.statusCode)) = false := by
  have h1 : processJsonResponse dec resp out
      = (out, some (HueLibError.httpStatus resp.statusCode)) := by
    unfold processJsonResponse
    simp [h]
  refine ⟨h1, ?_, by simp, rfl⟩
  simp only [Hue.get, h1]

/-- Witness for C6: a 404 response (as `GetLight` receives for a nonexistent
id) is reported as the status-404 error without body parsing. -/
theorem non200_reported_without_parsing_witness :
    processJsonResponse decAny (Response.mk 404 (ReadResult.ok (Body.json Json.null)))
        Json.null = (Json.null, some (HueLibError.httpStatus 404)) ∧
    Hue.get (some (Response.mk 404 (ReadResult.ok (Body.json Json.null)))) decAny
        Json.null = GoOutcome.err (HueLibError.httpStatus 404) ∧
    HueLibError.httpStatus 404 ≠ HueLibError.parseFailure ∧
    isApiClassified (some (HueLibError.httpStatus 404)) = false :=
  non200_reported_without_parsing decAny
    (Response.mk 404 (ReadResult.ok (Body.json Json.null))) Json.null (by decide)

/-- Claim C1: for a 200 response, the body is classified as a hub error if
and only if it unmarshals as the error envelope with a non-empty sequence
whose first entry has a non-zero error type; in every other case the routine
proceeds to the operation-specific success parse and never reports an API
error. -/
theorem processJsonResponse_classifies_error_iff_envelope {α : Type}
    (dec : Json → Option α) (b : Body) (out : α) :
    (isApiClassified (processJsonResponse dec (Response.mk 200 (ReadResult.ok b)) out).2
      = confirmedErrorEnvelope b) ∧
    (confirmedErrorEnvelope b = false →
      processJsonResponse dec (Response.mk 200 (ReadResult.ok b)) out
        = finishParse dec b out) := by
  rcases hagg : goUnmarshalAggregate b with _ | es
  · exact ⟨by simp [processJsonResponse, confirmedErrorEnvelope, hagg, finishParse_not_api],
      fun _ => by simp [processJsonResponse, hagg]⟩
  · rcases es with _ | ⟨e, rest⟩
    · exact ⟨by simp [processJsonResponse, confirmedErrorEnvelope, hagg, finishParse_not_api],
        fun _ => by simp [processJsonResponse, hagg]⟩
    · by_cases ht : e.Error.type = 0
      · exact ⟨by simp [processJsonResponse, confirmedErrorEnvelope, hagg, ht,
            finishParse_not_api],
          fun _ => by simp [processJsonResponse, hagg, ht]⟩
      · rcases rest with _ | ⟨e2, rest2⟩
        · refine ⟨by simp [processJsonResponse, confirmedErrorEnvelope, hagg, ht,
            isApiClassified], fun hfalse => ?_⟩
          rw [confirmedErrorEnvelope, hagg] at hfalse
          simp [ht] at hfalse
        · refine ⟨by simp [processJsonResponse, confirmedErrorEnvelope, hagg, ht,
            isApiClassified], fun hfalse => ?_⟩
          rw [confirmedErrorEnvelope, hagg] at hfalse
          simp [ht] at hfalse

/-- Witness for C1: a lights listing body is a JSON object, not an error
envelope, so classification proceeds to the success parse and reports no
API error. -/
theorem processJsonResponse_classifies_error_iff_envelope_witness :
    confirmedErrorEnvelope (Body.json lightsListingJson) = false ∧
    isApiClassified (processJsonResponse decAny
      (Response.mk 200 (ReadResult.ok (Body.json lightsListingJson))) Json.null).2 = false ∧
    processJsonResponse decAny
        (Response.mk 200 (ReadResult.ok (Body.json lightsListingJson))) Json.null
      = finishParse decAny (Body.json lightsListingJson) Json.null :=
  ⟨rfl,
   (processJsonResponse_classifies_error_iff_envelope decAny
     (Body.json lightsListingJson) Json.null).1.trans rfl,
   (processJsonResponse_classifies_error_iff_envelope decAny
     (Body.json lightsListingJson) Json.null).2 rfl⟩

/-- Claim C2: a confirmed error envelope with exactly one entry is returned
as a single `HueError`, and one with more entries as a `HueAggregateError`
preserving the entries in decoded order, whose rendered message joins each
entry message in that order with the newline separator. -/
theorem processJsonResponse_error_dispatch {α : Type} (dec : Json → Option α)
    (out : α) (b : Body) (e : HueErrorEntry) (rest : HueAggregateError)
    (hdec : goUnmarshalAggregate b = some (e :: rest)) (h0 : e.Error.type ≠ 0) :
    (rest = [] →
      processJsonResponse dec (Response.mk 200 (ReadResult.ok b)) out
        = (out, some (HueLibError.api e.Error))) ∧
    (rest ≠ [] →
      processJsonResponse dec (Response.mk 200 (ReadResult.ok b)) out
        = (out, some (HueLibError.aggregate (e :: rest)))) ∧
    HueAggregateError.render (e :: rest)
      = String.join ((e :: rest).map fun x => x.Error.render ++ "\n") := by
  refine ⟨?_, ?_, HueAggregateError.render_eq_join (e :: rest)⟩
  · intro hr
    subst hr
    simp [processJsonResponse, hdec, h0]
  · intro hr
    rcases rest with _ | ⟨e2, rest2⟩
    · exact absurd rfl hr
    · simp [processJsonResponse, hdec, h0]

/-- Witness for C2: a two-entry envelope is returned as the aggregate error
keeping both entries in order, and its message is the two entry messages in
order, each followed by the newline separator. -/
theorem processJsonResponse_error_dispatch_witness :
    goUnmarshalAggregate (Body.json twoErrorEnvelope)
      = some (⟨⟨1, "a", "d"⟩⟩ :: [⟨⟨2, "b", "e"⟩⟩]) ∧
    (⟨⟨1, "a", "d"⟩⟩ : HueErrorEntry).Error.type ≠ 0 ∧
    processJsonResponse decAny
        (Response.mk 200 (ReadResult.ok (Body.json twoErrorEnvelope))) Json.null
      = (Json.null, some (HueLibError.aggregate twoErrorEntries)) ∧
    HueAggregateError.render twoErrorEntries
      = String.join (twoErrorEntries.map fun x => x.Error.render ++ "\n") ∧
    HueAggregateError.render twoErrorEntries
      = "Hue Error 1: a d\nHue Error 2: b e\n" := by
  have h := processJsonResponse_error_dispatch decAny Json.null
    (Body.json twoErrorEnvelope) ⟨⟨1, "a", "d"⟩⟩ [⟨⟨2, "b", "e"⟩⟩] rfl (by decide)
  exact ⟨rfl, by decide, h.2.1 (by decide), h.2.2, rfl⟩

/-- Claim C7: the link-button-not-pressed body yields a single `HueError`
with code 101, and the command-line program maps exactly a single code-101
`HueError` to the press-the-link-button message. -/
theorem register_link_button_error_mapping {α : Type} (dec : Json → Option α)
    (out : α) :
    processJsonResponse dec (Response.mk 200 (ReadResult.ok (Body.json body101))) out
      = (out, some (HueLibError.api hueError101)) ∧
    hueError101 = HueError.mk 101 "/" "link button not pressed" ∧
    classifyRegisterError (HueLibError.api hueError101) = CliFatal.linkButton ∧
    (∀ err, classifyRegisterError err = CliFatal.linkButton ↔
      ∃ a d, err = HueLibError.api (HueError.mk 101 a d)) := by
  refine ⟨rfl, rfl, rfl, fun err => ?_⟩
  cases err with
  | api e =>
    rcases e with ⟨t, a, d⟩
    by_cases ht : t = 101
    · subst ht
      refine ⟨fun _ => ⟨a, d, rfl⟩, fun _ => ?_⟩
      simp [classifyRegisterError]
    · simp [classifyRegisterError, ht]
  | httpStatus code => simp [classifyRegisterError]
  | readFailure => simp [classifyRegisterError]
  | aggregate errs => simp [classifyRegisterError]
  | parseFailure => simp [classifyRegisterError]
  | marshalFailure => simp [classifyRegisterError]
  | transportFailure => simp [classifyRegisterError]

/-- Claim C9: classification inspects only the first envelope entry: when
the body decodes as a non-empty envelope whose first entry has error type 0,
the routine proceeds to success parsing and reports no API error, whatever
the later entries carry. -/
theorem processJsonResponse_first_entry_only {α : Type} (dec : Json → Option α)
    (out : α) (v : Json) (e : HueErrorEntry) (rest : HueAggregateError)
    (hdec : decodeAggregateJson v = some (e :: rest)) (h0 : e.Error.type = 0) :
    processJsonResponse dec (Response.mk 200 (ReadResult.ok (Body.json v))) out
      = finishParse dec (Body.json v) out ∧
    isApiClassified (processJsonResponse dec
      (Response.mk 200 (ReadResult.ok (Body.json v))) out).2 = false := by
  have h1 : processJsonResponse dec (Response.mk 200 (ReadResult.ok (Body.json v))) out
      = finishParse dec (Body.json v) out := by
    simp [processJsonResponse, goUnmarshalAggregate, hdec, h0]
  refine ⟨h1, ?_⟩
  rw [h1]
  exact finishParse_not_api dec (Body.json v) out

/-- Witness for C9: an envelope whose first entry has type 0 and whose
second entry has type 5 is not classified as an error. -/
theorem processJsonResponse_first_entry_only_witness :
    decodeAggregateJson zeroFirstEnvelope
      = some (⟨⟨0, "", ""⟩⟩ :: [⟨⟨5, "a", "d"⟩⟩]) ∧
    (⟨⟨0, "", ""⟩⟩ : HueErrorEntry).Error.type = 0 ∧
    (⟨⟨5, "a", "d"⟩⟩ : HueErrorEntry).Error.type ≠ 0 ∧
    (processJsonResponse decAny
        (Response.mk 200 (ReadResult.ok (Body.json zeroFirstEnvelope))) Json.null
      = finishParse decAny (Body.json zeroFirstEnvelope) Json.null ∧
     isApiClassified (processJsonResponse decAny
       (Response.mk 200 (ReadResult.ok (Body.json zeroFirstEnvelope))) Json.null).2 = false) :=
  ⟨rfl, rfl, by decide,
   processJsonResponse_first_entry_only decAny Json.null zeroFirstEnvelope
     ⟨⟨0, "", ""⟩⟩ [⟨⟨5, "a", "d"⟩⟩] rfl rfl⟩

/-- Claim C10: whenever `processJsonResponse` returns one of the errors that
arise before the success-parse stage (non-200 status, body read failure, or
a confirmed hub error), the caller-supplied output value is unchanged. -/
theorem processJsonResponse_no_write_before_success_parse {α : Type}
    (dec : Json → Option α) (resp : Response) (out : α) (e : HueLibError)
    (he : (processJsonResponse dec resp out).2 = some e)
    (hp : isPreParseError e = true) :
    (processJsonResponse dec resp out).1 = out := by
  rcases processJsonResponse_fst dec resp out with h | h
  · rw [he] at h
    exact absurd h (by simp)
  · exact h

/-- Witness for C10: a confirmed hub error (code 101) leaves the output
value untouched. -/
theorem processJsonResponse_no_write_before_success_parse_witness :
    (processJsonResponse decAny
        (Response.mk 200 (ReadResult.ok (Body.json body101))) Json.null).2
      = some (HueLibError.api hueError101) ∧
    isPreParseError (HueLibError.api hueError101) = true ∧
    (processJsonResponse decAny
        (Response.mk 200 (ReadResult.ok (Body.json body101))) Json.null).1
      = Json.null :=
  ⟨rfl, rfl,
   processJsonResponse_no_write_before_success_parse decAny
     (Response.mk 200 (ReadResult.ok (Body.json body101))) Json.null
     (HueLibError.api hueError101) rfl rfl⟩
